import Mathlib

/-!
Verification development for the meshsmith scene pipeline
(`source/core/Scene.cpp`).

The C++ code is shallowly embedded: `Scene::process`, `Scene::save`,
`Scene::load`, `Scene::getJsonReport` and `Scene::getJsonStatus` become pure
Lean functions over an explicit `Options` record (the fields of
`Scene::_options` that the .cpp file reads).  External collaborators that are
not part of this repository's sources (the flow math library's `Range3f`, the
assimp importer/exporter, `Processor.cpp`, `GLTFExporter.cpp`) are modelled
from the spec where a claim needs them; each such definition carries a
`Modelled from the spec:` doc comment.  Floating point scalars are embedded as
rationals: every operation the claims mention (min, max, sums, comparisons)
is exact on them.
-/

namespace Meshsmith

/-- Result of a pipeline stage: `flow::Result`, either ok or an error
carrying a message string. -/
inductive Result
  | ok
  | error (message : String)
deriving DecidableEq

/-- 3-component vector (`flow::Vector3f`, scalars embedded as `ℚ`). -/
structure Vector3 where
  x : ℚ
  y : ℚ
  z : ℚ
deriving DecidableEq

/-- The zero vector. -/
def Vector3.zero : Vector3 := ⟨0, 0, 0⟩

/-- `Vector3f::allZero()`: all three components are zero. -/
def Vector3.allZero (v : Vector3) : Bool :=
  decide (v.x = 0 ∧ v.y = 0 ∧ v.z = 0)

/-- 4x4 matrix (`flow::Matrix4f`, scalars embedded as `ℚ`). -/
abbrev Matrix4 := Fin 4 → Fin 4 → ℚ

/-- The identity matrix. -/
def Matrix4.identity : Matrix4 := fun i j => if i = j then 1 else 0

/-- `Matrix4f::isIdentity()`. -/
def Matrix4.isIdentity (m : Matrix4) : Bool :=
  decide (∀ i j, m i j = if i = j then (1 : ℚ) else 0)

/-- Per-axis alignment mode (`meshsmith::Align`). -/
inductive Align
  | None
  | Min
  | Center
  | Max
deriving DecidableEq

/-- The fields of `Scene::_options` (`meshsmith::Scene::Options`) that
`Scene.cpp` reads. -/
structure Options where
  input : String
  output : String
  format : String
  verbose : Bool
  swizzle : String
  scale : ℚ
  alignX : Align
  alignY : Align
  alignZ : Align
  translate : Vector3
  matrix : Matrix4
  flipUV : Bool
  stripNormals : Bool
  stripTexCoords : Bool
  joinVertices : Bool
  metallicFactor : ℚ
  roughnessFactor : ℚ
  diffuseMap : String
  occlusionMap : String
  emissiveMap : String
  metallicRoughnessMap : String
  zoneMap : String
  normalMap : String
  embedMaps : Bool
  useCompression : Bool
  objectSpaceNormals : Bool
  positionQuantizationBits : ℕ
  texCoordsQuantizationBits : ℕ
  normalsQuantizationBits : ℕ
  genericQuantizationBits : ℕ
  compressionLevel : ℕ

/-- A neutral option set, used to build concrete configurations. -/
def defaultOptions : Options where
  input := "input.obj"
  output := ""
  format := "obj"
  verbose := false
  swizzle := ""
  scale := 1
  alignX := Align.None
  alignY := Align.None
  alignZ := Align.None
  translate := Vector3.zero
  matrix := Matrix4.identity
  flipUV := false
  stripNormals := false
  stripTexCoords := false
  joinVertices := false
  metallicFactor := 0
  roughnessFactor := 1
  diffuseMap := ""
  occlusionMap := ""
  emissiveMap := ""
  metallicRoughnessMap := ""
  zoneMap := ""
  normalMap := ""
  embedMaps := false
  useCompression := false
  objectSpaceNormals := false
  positionQuantizationBits := 14
  texCoordsQuantizationBits := 12
  normalsQuantizationBits := 10
  genericQuantizationBits := 8
  compressionLevel := 7

/-- One invocation of a `Processor` operation, with the arguments
`Scene::process` passes to it. -/
inductive TransformOp
  | swizzle (spec : String)
  | scale (factor : ℚ)
  | align (ax ay az : Align)
  | translate (v : Vector3)
  | transform (m : Matrix4)
  | flipUVs (flipU flipV : Bool)
deriving DecidableEq

/-- The sequence of `Processor` calls made by `Scene::process`
(Scene.cpp lines 225-267): each operation is guarded by the exact condition
of the corresponding `if` in the source. -/
def Scene.processOps (opts : Options) : List TransformOp :=
  (if opts.swizzle ≠ "" then [TransformOp.swizzle opts.swizzle] else [])
  ++ (if opts.scale ≠ 1 then [TransformOp.scale opts.scale] else [])
  ++ (if opts.alignX ≠ Align.None ∨ opts.alignY ≠ Align.None ∨ opts.alignZ ≠ Align.None
        then [TransformOp.align opts.alignX opts.alignY opts.alignZ] else [])
  ++ (if opts.translate.allZero = false then [TransformOp.translate opts.translate] else [])
  ++ (if opts.matrix.isIdentity = false then [TransformOp.transform opts.matrix] else [])
  ++ (if opts.flipUV then [TransformOp.flipUVs false true] else [])

/-- `Scene::process` (Scene.cpp lines 225-267): invokes the enabled
`Processor` operations in order and then returns `Result::ok()`.  None of the
`Processor` calls' return values are inspected by the source: the function
has no error path.  The embedding returns the invocation trace together with
the returned `Result`. -/
def Scene.process (opts : Options) : List TransformOp × Result :=
  (Scene.processOps opts, Result.ok)

/-- The fixed pipeline order stated in spec section 4.2: swizzle, scale,
align, translate, matrix transform, UV flip (with `flipUVs` always called as
`(false, true)`). -/
def pipelineOps (opts : Options) : List TransformOp :=
  [TransformOp.swizzle opts.swizzle,
   TransformOp.scale opts.scale,
   TransformOp.align opts.alignX opts.alignY opts.alignZ,
   TransformOp.translate opts.translate,
   TransformOp.transform opts.matrix,
   TransformOp.flipUVs false true]

/-- The no-op predicate of spec section 4.2, one case per operation: an
operation is enabled exactly when its configuration is not a no-op. -/
def opEnabled (opts : Options) : TransformOp → Bool
  | TransformOp.swizzle _ => decide (opts.swizzle ≠ "")
  | TransformOp.scale _ => decide (opts.scale ≠ 1)
  | TransformOp.align _ _ _ =>
      decide (opts.alignX ≠ Align.None ∨ opts.alignY ≠ Align.None ∨ opts.alignZ ≠ Align.None)
  | TransformOp.translate _ => !opts.translate.allZero
  | TransformOp.transform _ => !opts.matrix.isIdentity
  | TransformOp.flipUVs _ _ => opts.flipUV

/-- Modelled from the spec: `Processor::swizzle`'s input validation
(Processor.cpp is not among the sources).  Spec section 4.2: the swizzle
specification is a short axis-letter string, each axis letter optionally
preceded by a sign.  `readAxes` consumes one optionally-negated axis letter
at a time and returns the letters read, lower-cased, or `none` on a
malformed character. -/
def readAxes : List Char → Option (List Char)
  | [] => some []
  | '-' :: c :: rest =>
      if c = 'x' ∨ c = 'y' ∨ c = 'z' ∨ c = 'X' ∨ c = 'Y' ∨ c = 'Z' then
        (readAxes rest).map (fun l => c.toLower :: l)
      else
        none
  | '-' :: [] => none
  | c :: rest =>
      if c = 'x' ∨ c = 'y' ∨ c = 'z' ∨ c = 'X' ∨ c = 'Y' ∨ c = 'Z' then
        (readAxes rest).map (fun l => c.toLower :: l)
      else
        none

/-- Modelled from the spec: a swizzle specification is valid iff it is a
permutation-with-sign of the three axes, i.e. it parses into exactly the
letters x, y, z in some order (spec section 4.2, operation 1). -/
def swizzleValid (spec : String) : Bool :=
  match readAxes spec.data with
  | none => false
  | some letters => decide (List.Perm letters ['x', 'y', 'z'])

/-- Modelled from the spec: `Processor::swizzle` "fails with ConfigError if
the specification is not a valid permutation-with-sign of three axes" (spec
section 4.2); per section 7 the failure is returned as a value. -/
def Processor.swizzleResult (spec : String) : Result :=
  if swizzleValid spec then Result.ok
  else Result.error ("invalid swizzle specification: " ++ spec)

/-- One entry of the generic exporter's format list (`aiExportFormatDesc`). -/
structure ExportFormat where
  id : String
  fileExtension : String
  description : String
deriving DecidableEq

/-- The glTF exporter's Draco sub-configuration (`GLTFDracoOptions`),
as copied by `Scene::save` (Scene.cpp lines 163-168). -/
structure GLTFDracoOptions where
  positionQuantizationBits : ℕ
  texCoordsQuantizationBits : ℕ
  normalsQuantizationBits : ℕ
  genericQuantizationBits : ℕ
  compressionLevel : ℕ
deriving DecidableEq

/-- The glTF exporter's configuration (`GLTFExporterOptions`), as copied by
`Scene::save` (Scene.cpp lines 146-169). -/
structure GLTFExporterOptions where
  verbose : Bool
  metallicFactor : ℚ
  roughnessFactor : ℚ
  diffuseMapFile : String
  occlusionMapFile : String
  emissiveMapFile : String
  metallicRoughnessMapFile : String
  zoneMapFile : String
  normalMapFile : String
  embedMaps : Bool
  useCompression : Bool
  objectSpaceNormals : Bool
  stripNormals : Bool
  stripTexCoords : Bool
  writeBinary : Bool
  draco : GLTFDracoOptions
deriving DecidableEq

/-- The field-by-field construction of `GLTFExporterOptions` performed by
`Scene::save` on the specialized path (Scene.cpp lines 146-169). -/
def gltfOptionsOf (opts : Options) : GLTFExporterOptions where
  verbose := opts.verbose
  metallicFactor := opts.metallicFactor
  roughnessFactor := opts.roughnessFactor
  diffuseMapFile := opts.diffuseMap
  occlusionMapFile := opts.occlusionMap
  emissiveMapFile := opts.emissiveMap
  metallicRoughnessMapFile := opts.metallicRoughnessMap
  zoneMapFile := opts.zoneMap
  normalMapFile := opts.normalMap
  embedMaps := opts.embedMaps
  useCompression := opts.useCompression
  objectSpaceNormals := opts.objectSpaceNormals
  stripNormals := opts.stripNormals
  stripTexCoords := opts.stripTexCoords
  writeBinary := decide (opts.format = "glbx")
  draco :=
    { positionQuantizationBits := opts.positionQuantizationBits
    , texCoordsQuantizationBits := opts.texCoordsQuantizationBits
    , normalsQuantizationBits := opts.normalsQuantizationBits
    , genericQuantizationBits := opts.genericQuantizationBits
    , compressionLevel := opts.compressionLevel }

/-- An assimp post-process step appearing in `Scene.cpp` (`aiProcess_...`
flag bits, embedded as an enumeration; bitmask union becomes list union). -/
inductive ProcessStep
  | removeComponent
  | joinIdenticalVertices
  | triangulate
deriving DecidableEq

/-- The externally observable outcome of `Scene::save`: which exporter is
delegated to and with which arguments, or the config error returned before
any exporter runs.  (The delegated exporter's own success or failure is
external to this file's sources.) -/
inductive SaveAction
  | specialized (gltfOptions : GLTFExporterOptions) (outputFilePath : String)
  | generic (formatId : String) (outputFilePath : String) (exportSteps : List ProcessStep)
  | configError (message : String)
deriving DecidableEq

/-- Which of the two export paths a `SaveAction` belongs to (the config
error is raised inside the generic path, Scene.cpp lines 193-195). -/
inductive ExportPath
  | specialized
  | generic
deriving DecidableEq

/-- Path classification of a `SaveAction`. -/
def SaveAction.pathTaken : SaveAction → ExportPath
  | SaveAction.specialized _ _ => ExportPath.specialized
  | _ => ExportPath.generic

/-- Scene.cpp line 135: the output file path before extension handling is
the explicit output path if non-empty, otherwise the input path. -/
def chosenOutputPath (opts : Options) : String :=
  if opts.output = "" then opts.input else opts.output

/-- `s.find_last_of(".")` combined with `substr`: splits a character list
into the part before the last dot and the part after it, or `none` when
there is no dot. -/
def splitAtLastDot : List Char → Option (List Char × List Char)
  | [] => none
  | c :: rest =>
    match splitAtLastDot rest with
    | some (pre, post) => some (c :: pre, post)
    | none => if c = '.' then some ([], rest) else none

/-- Scene.cpp lines 136-137: `substr(0, find_last_of("."))`.  When the path
has no dot, `find_last_of` yields `npos` and `substr(0, npos)` yields the
whole string. -/
def baseFilePathOf (s : String) : String :=
  match splitAtLastDot s.data with
  | none => s
  | some (pre, _) => String.mk pre

/-- `Scene::save` (Scene.cpp lines 133-223).  The generic format list
(`aiGetExportFormatDescription`) is external input, passed as a parameter.
The fold over `formats` mirrors the lookup loop of lines 182-191, whose
running `extension` variable starts empty and is overwritten on every id
match. -/
def Scene.save (opts : Options) (formats : List ExportFormat) : SaveAction :=
  let outputFilePath := chosenOutputPath opts
  let baseFilePath := baseFilePathOf outputFilePath
  if opts.format = "gltfx" ∨ opts.format = "glbx" then
    SaveAction.specialized (gltfOptionsOf opts) outputFilePath
  else
    let extension :=
      formats.foldl (fun acc d => if opts.format = d.id then d.fileExtension else acc) ""
    if extension = "" then
      SaveAction.configError ("invalid output format id: " ++ opts.format)
    else
      SaveAction.generic opts.format (baseFilePath ++ "." ++ extension)
        (if opts.joinVertices then [ProcessStep.joinIdenticalVertices] else [])

/-- Modelled from the spec: `flow::Range3f` (spec sections 3 and 4.1), not
among the sources.  A bounding box is either the distinct invalid/empty
state (produced by `invalidate()`) or a min/max corner pair. -/
inductive Range3
  | invalid
  | range (lo hi : Vector3)
deriving DecidableEq

/-- Modelled from the spec: `Range3f::uniteWith` (spec section 4.1):
componentwise min of mins and max of maxes; union with an invalid range
yields the other range unchanged. -/
def Range3.uniteWith : Range3 → Range3 → Range3
  | Range3.invalid, r => r
  | r, Range3.invalid => r
  | Range3.range lo1 hi1, Range3.range lo2 hi2 =>
      Range3.range
        ⟨min lo1.x lo2.x, min lo1.y lo2.y, min lo1.z lo2.z⟩
        ⟨max hi1.x hi2.x, max hi1.y hi2.y, max hi1.z hi2.z⟩

/-- Modelled from the spec: `Range3f::size()` = max - min; degenerate
(zero) on an invalid range (spec section 4.1). -/
def Range3.size : Range3 → Vector3
  | Range3.invalid => Vector3.zero
  | Range3.range lo hi => ⟨hi.x - lo.x, hi.y - lo.y, hi.z - lo.z⟩

/-- Modelled from the spec: `Range3f::center()` = (max + min) / 2;
degenerate (zero) on an invalid range (spec section 4.1). -/
def Range3.center : Range3 → Vector3
  | Range3.invalid => Vector3.zero
  | Range3.range lo hi => ⟨(hi.x + lo.x) / 2, (hi.y + lo.y) / 2, (hi.z + lo.z) / 2⟩

/-- Modelled from the spec: `Processor::calculateBoundingBox`
(Processor.cpp is not among the sources; spec section 4.1): folds over every
vertex position of the mesh; a mesh with zero vertices yields an invalid
range. -/
def calculateBoundingBox (verts : List Vector3) : Range3 :=
  verts.foldl (fun r v => r.uniteWith (Range3.range v v)) Range3.invalid

/-- One `aiMesh` as read by `Scene::getJsonReport`: vertex positions
(`mNumVertices` = length), face count, and the attribute-presence flags and
channel counts the report emits. -/
structure Mesh where
  vertices : List Vector3
  numFaces : ℕ
  hasNormals : Bool
  hasTangentsAndBitangents : Bool
  hasBones : Bool
  hasTexCoords : Bool
  numTexCoordChannels : ℕ
  hasVertexColors : Bool
  numColorChannels : ℕ
deriving DecidableEq

/-- The parts of an `aiScene` read by `Scene::getJsonReport`. -/
structure SceneData where
  meshes : List Mesh
  numMaterials : ℕ
  numTextures : ℕ
  numLights : ℕ
  numCameras : ℕ
  numAnimations : ℕ
deriving DecidableEq

/-- One per-mesh entry of the report (Scene.cpp lines 294-328): statistics
object plus geometry object. -/
structure MeshReport where
  numVertices : ℕ
  numFaces : ℕ
  hasNormals : Bool
  hasTangentsAndBitangents : Bool
  hasBones : Bool
  hasTexCoords : Bool
  numTexCoordChannels : ℕ
  hasVertexColors : Bool
  numColorChannels : ℕ
  boundingBox : Range3
  size : Vector3
  center : Vector3
deriving DecidableEq

/-- The scene-wide statistics object of the report (Scene.cpp lines
333-342). -/
structure SceneStatistics where
  numVertices : ℕ
  numFaces : ℕ
  numMeshes : ℕ
  numMaterials : ℕ
  numTextures : ℕ
  numLights : ℕ
  numCameras : ℕ
  numAnimations : ℕ
deriving DecidableEq

/-- The whole report document (Scene.cpp lines 277-363). -/
structure Report where
  type : String
  filePath : String
  meshes : List MeshReport
  sceneStatistics : SceneStatistics
  sceneBoundingBox : Range3
  sceneSize : Vector3
  sceneCenter : Vector3
deriving DecidableEq

/-- The per-mesh report entry built inside the loop of
`Scene::getJsonReport` (Scene.cpp lines 294-328). -/
def meshReportOf (m : Mesh) : MeshReport :=
  let box := calculateBoundingBox m.vertices
  { numVertices := m.vertices.length
  , numFaces := m.numFaces
  , hasNormals := m.hasNormals
  , hasTangentsAndBitangents := m.hasTangentsAndBitangents
  , hasBones := m.hasBones
  , hasTexCoords := m.hasTexCoords
  , numTexCoordChannels := m.numTexCoordChannels
  , hasVertexColors := m.hasVertexColors
  , numColorChannels := m.numColorChannels
  , boundingBox := box
  , size := box.size
  , center := box.center }

/-- The running state of the mesh loop of `Scene::getJsonReport`:
`sceneNumVertices`, `sceneNumFaces`, `sceneBoundingBox` and the `meshes`
json array. -/
structure ReportAcc where
  numVertices : ℕ
  numFaces : ℕ
  box : Range3
  meshes : List MeshReport
deriving DecidableEq

/-- One iteration of the mesh loop (Scene.cpp lines 291-329). -/
def reportStep (a : ReportAcc) (m : Mesh) : ReportAcc :=
  let box := calculateBoundingBox m.vertices
  { numVertices := a.numVertices + m.vertices.length
  , numFaces := a.numFaces + m.numFaces
  , box := a.box.uniteWith box
  , meshes := a.meshes ++ [meshReportOf m] }

/-- `Scene::getJsonReport` (Scene.cpp lines 269-364): normalizes the input
path's separators, folds the mesh loop over the scene's meshes starting from
zero counts and an invalidated box, then assembles the document. -/
def Scene.getJsonReport (opts : Options) (scene : SceneData) : Report :=
  let filePath := String.map (fun c => if c = '\\' then '/' else c) opts.input
  let acc := scene.meshes.foldl reportStep
    { numVertices := 0, numFaces := 0, box := Range3.invalid, meshes := [] }
  { type := "report"
  , filePath := filePath
  , meshes := acc.meshes
  , sceneStatistics :=
    { numVertices := acc.numVertices
    , numFaces := acc.numFaces
    , numMeshes := scene.meshes.length
    , numMaterials := scene.numMaterials
    , numTextures := scene.numTextures
    , numLights := scene.numLights
    , numCameras := scene.numCameras
    , numAnimations := scene.numAnimations }
  , sceneBoundingBox := acc.box
  , sceneSize := acc.box.size
  , sceneCenter := acc.box.center }

/-- The status document (Scene.cpp lines 69-78): top-level kind tag,
status value, and the optional `error` field. -/
structure StatusDoc where
  type : String
  status : String
  error : Option String
deriving DecidableEq

/-- `Scene::getJsonStatus` (Scene.cpp lines 65-79): `isError` is
`!errorMessage.empty()`; the `error` field is added only when `isError`. -/
def Scene.getJsonStatus (errorMessage : String) : StatusDoc :=
  let isError := errorMessage ≠ ""
  { type := "status"
  , status := if isError then "error" else "ok"
  , error := if isError then some errorMessage else none }

/-- An `aiComponent` removal flag bit appearing in `Scene::load`, embedded
as an enumeration (bitmask union becomes list union). -/
inductive Component
  | materials
  | textures
  | lights
  | cameras
  | animations
  | boneWeights
  | colors
  | normals
  | tangentsAndBitangents
  | texCoords
deriving DecidableEq

/-- The component-removal set requested by `Scene::load` (Scene.cpp lines
101-118): the unconditional base flags, plus normals and tangents when
`stripNormals`, plus texture coordinates when `stripTexCoords`. -/
def Scene.loadRemoveComponents (opts : Options) : List Component :=
  [Component.materials, Component.textures, Component.lights, Component.cameras,
   Component.animations, Component.boneWeights, Component.colors]
  ++ (if opts.stripNormals then [Component.normals, Component.tangentsAndBitangents] else [])
  ++ (if opts.stripTexCoords then [Component.texCoords] else [])

/-- The post-process flags passed to `ReadFile` by `Scene::load`
(Scene.cpp line 121). -/
def Scene.loadProcessSteps (_opts : Options) : List ProcessStep :=
  [ProcessStep.removeComponent, ProcessStep.joinIdenticalVertices, ProcessStep.triangulate]

/-- The extension-lookup fold of `Scene::save` leaves its accumulator
untouched when no format id matches. -/
theorem foldExt_no_match (q : String) :
    ∀ (l : List ExportFormat) (init : String), (∀ g ∈ l, g.id ≠ q) →
      l.foldl (fun acc d => if q = d.id then d.fileExtension else acc) init = init := by
  intro l
  induction l with
  | nil => intro init _; rfl
  | cons d rest ih =>
    intro init h
    have hd : ¬(q = d.id) := fun he => h d (List.mem_cons_self d rest) he.symm
    simp only [List.foldl_cons, if_neg hd]
    exact ih init fun g hg => h g (List.mem_cons_of_mem d hg)

/-- The extension-lookup fold of `Scene::save` returns the common extension
of the matching entries when at least one entry matches. -/
theorem foldExt_match (q e : String) :
    ∀ (l : List ExportFormat) (init : String),
      (∃ g ∈ l, g.id = q) → (∀ g ∈ l, g.id = q → g.fileExtension = e) →
      l.foldl (fun acc d => if q = d.id then d.fileExtension else acc) init = e := by
  intro l
  induction l with
  | nil => intro init hex _; simp at hex
  | cons d rest ih =>
    intro init hex hall
    by_cases hr : ∃ g ∈ rest, g.id = q
    · exact ih _ hr fun g hg hq => hall g (List.mem_cons_of_mem d hg) hq
    · obtain ⟨g, hg, hgq⟩ := hex
      rcases List.mem_cons.mp hg with rfl | hgr
      · have hq : q = g.id := hgq.symm
        have hrest : ∀ g2 ∈ rest, g2.id ≠ q := by
          intro g2 hg2 hq2
          exact hr ⟨g2, hg2, hq2⟩
        simp only [List.foldl_cons, if_pos hq]
        rw [foldExt_no_match q rest g.fileExtension hrest]
        exact hall g (List.mem_cons_self g rest) hgq
      · exact absurd ⟨g, hgr, hgq⟩ hr

/-- When `splitAtLastDot` finds no dot, the list contains none. -/
theorem splitAtLastDot_none_no_dot :
    ∀ cs : List Char, splitAtLastDot cs = none → '.' ∉ cs := by
  intro cs
  induction cs with
  | nil => intro _ h; simp at h
  | cons c rest ih =>
    intro h hmem
    simp only [splitAtLastDot] at h
    cases hre : splitAtLastDot rest with
    | some pr =>
      obtain ⟨pre, post⟩ := pr
      rw [hre] at h
      simp at h
    | none =>
      rw [hre] at h
      by_cases hc : c = '.'
      · simp [hc] at h
      · rcases List.mem_cons.mp hmem with heq | hm
        · exact hc heq.symm
        · exact ih hre hm

/-- `splitAtLastDot` really splits at the last dot: the input is the
returned head, a dot, and a dot-free tail. -/
theorem splitAtLastDot_sound :
    ∀ (cs pre post : List Char), splitAtLastDot cs = some (pre, post) →
      cs = pre ++ '.' :: post ∧ '.' ∉ post := by
  intro cs
  induction cs with
  | nil => intro pre post h; simp [splitAtLastDot] at h
  | cons c rest ih =>
    intro pre post h
    simp only [splitAtLastDot] at h
    cases hre : splitAtLastDot rest with
    | some pr =>
      obtain ⟨pre2, post2⟩ := pr
      rw [hre] at h
      simp only [Option.some.injEq, Prod.mk.injEq] at h
      obtain ⟨hp, hq⟩ := h
      obtain ⟨hcs, hnd⟩ := ih pre2 post2 hre
      subst hp
      subst hq
      refine ⟨?_, hnd⟩
      rw [hcs]
      simp
    | none =>
      rw [hre] at h
      by_cases hc : c = '.'
      · rw [if_pos hc] at h
        cases h
        exact ⟨by simp [hc], splitAtLastDot_none_no_dot rest hre⟩
      · simp [hc] at h

/-- A list containing a dot is split successfully. -/
theorem splitAtLastDot_total (cs : List Char) (hdot : '.' ∈ cs) :
    ∃ pr : List Char × List Char, splitAtLastDot cs = some pr := by
  cases h : splitAtLastDot cs with
  | none => exact absurd hdot (splitAtLastDot_none_no_dot cs h)
  | some pr => exact ⟨pr, rfl⟩

/-- On the specialized branch, `Scene::save` delegates to the glTF exporter
with the copied options and the undoctored output path. -/
theorem save_spec_eq (opts : Options) (formats : List ExportFormat)
    (h : opts.format = "gltfx" ∨ opts.format = "glbx") :
    Scene.save opts formats
      = SaveAction.specialized (gltfOptionsOf opts) (chosenOutputPath opts) := by
  simp [Scene.save, h]

/-- The export path taken by `Scene::save` is a function of the format id
alone. -/
theorem save_pathTaken (opts : Options) (formats : List ExportFormat) :
    (Scene.save opts formats).pathTaken
      = if opts.format = "gltfx" ∨ opts.format = "glbx"
        then ExportPath.specialized else ExportPath.generic := by
  by_cases h : opts.format = "gltfx" ∨ opts.format = "glbx"
  · simp [Scene.save, h, SaveAction.pathTaken]
  · simp only [Scene.save, if_neg h]
    split <;> simp [SaveAction.pathTaken, h]

/-- Closed form of the mesh-loop fold of `Scene::getJsonReport`, for any
starting accumulator. -/
theorem reportFold_spec (ms : List Mesh) :
    ∀ a : ReportAcc,
      ms.foldl reportStep a
        = { numVertices := a.numVertices + (ms.map (fun m => m.vertices.length)).sum
          , numFaces := a.numFaces + (ms.map Mesh.numFaces).sum
          , box := (ms.map (fun m => calculateBoundingBox m.vertices)).foldl
                     Range3.uniteWith a.box
          , meshes := a.meshes ++ ms.map meshReportOf } := by
  induction ms with
  | nil => intro a; simp
  | cons m rest ih =>
    intro a
    rw [List.foldl_cons, ih]
    simp [reportStep, add_assoc]

/-- Concrete configuration used as a test vector: unknown format id. -/
def optUnknownFormat : Options := { defaultOptions with format := "xyz" }

/-- Concrete configuration used as a test vector: binary glTF format id. -/
def optGlbx : Options := { defaultOptions with format := "glbx" }

/-- Concrete configuration used as a test vector: text glTF format id with
an explicit output path whose extension differs from the format. -/
def optGltfxExplicitOut : Options :=
  { defaultOptions with format := "gltfx", output := "model.obj" }

/-- Concrete configuration used as a test vector: generic format id with an
explicit output path carrying a foreign extension. -/
def optObjExplicitOut : Options :=
  { defaultOptions with format := "obj", output := "explicit.xyz" }

/-- Concrete generic-exporter format list used as a test vector. -/
def objFormatList : List ExportFormat :=
  [{ id := "obj", fileExtension := "obj", description := "Wavefront OBJ format" }]

/-- Claim C1: `Scene::process` performs the transform operations in the
fixed order swizzle, scale, align, translate, matrix transform, UV flip, and
an operation is invoked exactly when its configuration is not a no-op
(non-empty swizzle string, scale different from 1, some alignment mode not
None, translation not all zero, matrix not the identity, UV-flip flag set):
the invocation trace equals the fixed-order pipeline filtered by the
enabledness predicate. -/
theorem process_applies_ops_in_fixed_order_iff_enabled (opts : Options) :
    (Scene.process opts).1 = (pipelineOps opts).filter (opEnabled opts) := by
  show Scene.processOps opts = (pipelineOps opts).filter (opEnabled opts)
  simp only [Scene.processOps, pipelineOps, List.filter_cons, List.filter_nil, opEnabled,
    decide_eq_true_eq, Bool.not_eq_true', List.append_nil]
  split_ifs <;> simp_all

/-- Claim C2: when the format id is neither of the specialized ids and
matches no id in the generic format list, `Scene::save` returns exactly the
config error "invalid output format id: <id>" and never reaches the generic
export call. -/
theorem save_unknown_format_yields_config_error
    (opts : Options) (formats : List ExportFormat)
    (h1 : opts.format ≠ "gltfx") (h2 : opts.format ≠ "glbx")
    (h3 : ∀ g ∈ formats, g.id ≠ opts.format) :
    Scene.save opts formats
        = SaveAction.configError ("invalid output format id: " ++ opts.format)
  ∧ ∀ fid p steps, Scene.save opts formats ≠ SaveAction.generic fid p steps := by
  have hne : ¬(opts.format = "gltfx" ∨ opts.format = "glbx") := by
    rintro (h | h)
    · exact h1 h
    · exact h2 h
  have hfold := foldExt_no_match opts.format formats "" h3
  have heq : Scene.save opts formats
      = SaveAction.configError ("invalid output format id: " ++ opts.format) := by
    simp [Scene.save, hne, hfold]
  refine ⟨heq, ?_⟩
  intro fid p steps
  rw [heq]
  simp

/-- Witness for C2 at a concrete configuration and format list. -/
theorem save_unknown_format_yields_config_error_witness :
    Scene.save optUnknownFormat objFormatList
      = SaveAction.configError "invalid output format id: xyz" := by
  have h := save_unknown_format_yields_config_error optUnknownFormat objFormatList
    (by decide) (by decide) (by decide)
  rw [h.1]
  rfl

/-- Claim C3: export dispatch in `Scene::save` depends only on the format
id: the specialized path is taken iff the id is "gltfx" or "glbx" (the
format list plays no role in the choice), every other id takes the generic
path, exactly one path is taken per run, and binary output is selected iff
the id is "glbx". -/
theorem save_dispatch_determined_by_format_id
    (opts : Options) (formats : List ExportFormat) :
    ((Scene.save opts formats).pathTaken = ExportPath.specialized
        ↔ (opts.format = "gltfx" ∨ opts.format = "glbx"))
  ∧ ((Scene.save opts formats).pathTaken = ExportPath.generic
        ↔ ¬(opts.format = "gltfx" ∨ opts.format = "glbx"))
  ∧ ∀ g p, Scene.save opts formats = SaveAction.specialized g p
        → (g.writeBinary = true ↔ opts.format = "glbx") := by
  refine ⟨?_, ?_, ?_⟩
  · rw [save_pathTaken]
    split_ifs with h <;> simp [h]
  · rw [save_pathTaken]
    split_ifs with h <;> simp [h]
  · intro g p heq
    by_cases h : opts.format = "gltfx" ∨ opts.format = "glbx"
    · rw [save_spec_eq opts formats h] at heq
      injection heq with hg hp
      subst hg
      simp [gltfOptionsOf]
    · exfalso
      have hpath := save_pathTaken opts formats
      rw [heq, if_neg h] at hpath
      simp [SaveAction.pathTaken] at hpath

/-- Witness for C3 at a concrete binary-glTF configuration. -/
theorem save_dispatch_determined_by_format_id_witness :
    (Scene.save optGlbx objFormatList).pathTaken = ExportPath.specialized
  ∧ (gltfOptionsOf optGlbx).writeBinary = true := by
  have h := save_dispatch_determined_by_format_id optGlbx objFormatList
  refine ⟨h.1.mpr (Or.inr rfl), ?_⟩
  exact (h.2.2 (gltfOptionsOf optGlbx) (chosenOutputPath optGlbx) (by decide)).mpr rfl

/-- Claim C4: on the generic path, for a format id matching a generic
format with a non-empty canonical extension, the output file path handed to
the exporter is the explicit output path if non-empty (else the input path)
with everything from its last dot onward replaced by a dot plus the matched
format's extension — the substitution also applies to an explicitly given
output path. -/
theorem save_generic_output_path_extension_substitution
    (opts : Options) (formats : List ExportFormat) (fmt : ExportFormat)
    (h1 : opts.format ≠ "gltfx") (h2 : opts.format ≠ "glbx")
    (hmem : fmt ∈ formats) (hid : fmt.id = opts.format)
    (huniq : ∀ g ∈ formats, g.id = opts.format → g.fileExtension = fmt.fileExtension)
    (hext : fmt.fileExtension ≠ "")
    (hdot : '.' ∈ (chosenOutputPath opts).data) :
    ∃ pre post : List Char,
      (chosenOutputPath opts).data = pre ++ '.' :: post
      ∧ '.' ∉ post
      ∧ Scene.save opts formats
          = SaveAction.generic opts.format
              (String.mk pre ++ "." ++ fmt.fileExtension)
              (if opts.joinVertices then [ProcessStep.joinIdenticalVertices] else []) := by
  have hne : ¬(opts.format = "gltfx" ∨ opts.format = "glbx") := by
    rintro (h | h)
    · exact h1 h
    · exact h2 h
  obtain ⟨⟨pre, post⟩, hsplit⟩ := splitAtLastDot_total _ hdot
  obtain ⟨hcs, hnd⟩ := splitAtLastDot_sound _ pre post hsplit
  have hfold := foldExt_match opts.format fmt.fileExtension formats ""
    ⟨fmt, hmem, hid⟩ huniq
  have hbase : baseFilePathOf (chosenOutputPath opts) = String.mk pre := by
    simp [baseFilePathOf, hsplit]
  refine ⟨pre, post, hcs, hnd, ?_⟩
  simp [Scene.save, hne, hfold, hbase, hext]

/-- Witness for C4: format "obj" with the explicit output path
"explicit.xyz"; the exporter receives "explicit.obj". -/
theorem save_generic_output_path_extension_substitution_witness :
    ∃ pre post : List Char,
      (chosenOutputPath optObjExplicitOut).data = pre ++ '.' :: post
      ∧ '.' ∉ post
      ∧ Scene.save optObjExplicitOut objFormatList
          = SaveAction.generic "obj" (String.mk pre ++ "." ++ "obj") [] := by
  have h := save_generic_output_path_extension_substitution optObjExplicitOut objFormatList
    { id := "obj", fileExtension := "obj", description := "Wavefront OBJ format" }
    (by decide) (by decide) (by simp [objFormatList]) rfl
    (by decide) (by decide) (by decide)
  simpa using h

/-- Claim C5 (code bug): the spec requires `Scene::process` to fail with a
config error on an invalid swizzle specification, but `Scene::process`
discards every `Processor` return value and unconditionally returns
`Result::ok()`: at the invalid specification "qqq" the modelled swizzle
validation rejects and the modelled `Processor::swizzle` fails, the
operation is still invoked, and `Scene::process` still returns ok. -/
theorem process_returns_ok_despite_invalid_swizzle :
    swizzleValid "qqq" = false
  ∧ Processor.swizzleResult "qqq"
      = Result.error "invalid swizzle specification: qqq"
  ∧ TransformOp.swizzle "qqq"
      ∈ (Scene.process { defaultOptions with swizzle := "qqq" }).1
  ∧ (Scene.process { defaultOptions with swizzle := "qqq" }).2 = Result.ok := by
  refine ⟨by decide, by decide, ?_, rfl⟩
  decide

/-- Claim C6: the report of `Scene::getJsonReport` carries scene-wide
vertex and face counts equal to the sums over all meshes, a scene-wide
bounding box equal to the union, in mesh order, of the per-mesh boxes
starting from the invalid box, and one per-mesh entry per mesh in scene
order carrying that mesh's flags, channel counts and box data. -/
theorem report_totals_and_box_union (opts : Options) (scene : SceneData) :
    (Scene.getJsonReport opts scene).sceneStatistics.numVertices
        = (scene.meshes.map (fun m => m.vertices.length)).sum
  ∧ (Scene.getJsonReport opts scene).sceneStatistics.numFaces
        = (scene.meshes.map Mesh.numFaces).sum
  ∧ (Scene.getJsonReport opts scene).sceneBoundingBox
        = (scene.meshes.map (fun m => calculateBoundingBox m.vertices)).foldl
            Range3.uniteWith Range3.invalid
  ∧ (Scene.getJsonReport opts scene).meshes = scene.meshes.map meshReportOf := by
  refine ⟨?_, ?_, ?_, ?_⟩ <;>
    simp [Scene.getJsonReport, reportFold_spec]

/-- Claim C7: on a scene with zero meshes `Scene::getJsonReport` produces
an empty meshes array, zero scene-wide vertex and face counts, and a
scene-wide bounding box left in the invalid state — whose size and center
the report nevertheless computes, obtaining the degenerate zero vectors. -/
theorem report_empty_scene_invalid_box
    (opts : Options) (nMat nTex nLig nCam nAni : ℕ) :
    (Scene.getJsonReport opts ⟨[], nMat, nTex, nLig, nCam, nAni⟩).meshes = []
  ∧ (Scene.getJsonReport opts ⟨[], nMat, nTex, nLig, nCam, nAni⟩).sceneStatistics.numVertices = 0
  ∧ (Scene.getJsonReport opts ⟨[], nMat, nTex, nLig, nCam, nAni⟩).sceneStatistics.numFaces = 0
  ∧ (Scene.getJsonReport opts ⟨[], nMat, nTex, nLig, nCam, nAni⟩).sceneStatistics.numMeshes = 0
  ∧ (Scene.getJsonReport opts ⟨[], nMat, nTex, nLig, nCam, nAni⟩).sceneBoundingBox
      = Range3.invalid
  ∧ (Scene.getJsonReport opts ⟨[], nMat, nTex, nLig, nCam, nAni⟩).sceneSize = Vector3.zero
  ∧ (Scene.getJsonReport opts ⟨[], nMat, nTex, nLig, nCam, nAni⟩).sceneCenter = Vector3.zero :=
  ⟨rfl, rfl, rfl, rfl, rfl, rfl, rfl⟩

/-- Claim C8: `Scene::getJsonStatus` always carries the kind tag "status";
on a non-empty message the status value is "error" and the `error` field
holds exactly the message; on the empty message the status value is "ok"
and no `error` field is present — so any non-empty failure message is
representable as a status document. -/
theorem status_document_shape (msg : String) :
    (Scene.getJsonStatus msg).type = "status"
  ∧ (msg ≠ "" → (Scene.getJsonStatus msg).status = "error"
        ∧ (Scene.getJsonStatus msg).error = some msg)
  ∧ (msg = "" → (Scene.getJsonStatus msg).status = "ok"
        ∧ (Scene.getJsonStatus msg).error = none) := by
  by_cases h : msg = "" <;> simp [Scene.getJsonStatus, h]

/-- Witness for C8 at a concrete non-empty message. -/
theorem status_document_shape_witness :
    (Scene.getJsonStatus "read failure").status = "error"
  ∧ (Scene.getJsonStatus "read failure").error = some "read failure" :=
  (status_document_shape "read failure").2.1 (by decide)

/-- Claim C9: on the specialized path ("gltfx" or "glbx"), `Scene::save`
hands the chosen output path — the explicit output path if non-empty, else
the input path — to the glTF exporter verbatim: no extension substitution
happens on this path. -/
theorem save_specialized_path_unchanged
    (opts : Options) (formats : List ExportFormat)
    (h : opts.format = "gltfx" ∨ opts.format = "glbx") :
    Scene.save opts formats
      = SaveAction.specialized (gltfOptionsOf opts)
          (if opts.output = "" then opts.input else opts.output) :=
  save_spec_eq opts formats h

/-- Witness for C9: format "gltfx" with the explicit output path
"model.obj"; the exporter receives "model.obj" untouched even though the
format list maps "obj" to another extension. -/
theorem save_specialized_path_unchanged_witness :
    Scene.save optGltfxExplicitOut objFormatList
      = SaveAction.specialized (gltfOptionsOf optGltfxExplicitOut) "model.obj" := by
  have h := save_specialized_path_unchanged optGltfxExplicitOut objFormatList (Or.inl rfl)
  simpa using h

/-- Claim C10: `Scene::load` requests removal of materials, textures,
lights, cameras, animations, bone weights and vertex colors unconditionally;
normals and tangents are additionally requested exactly when `stripNormals`
is set, texture coordinates exactly when `stripTexCoords` is set; and the
post-process flags are always component removal, identical-vertex joining
and triangulation. -/
theorem load_remove_components_and_process_flags (opts : Options) :
    (∀ c : Component,
        c ∈ Scene.loadRemoveComponents opts
          ↔ (c = Component.materials ∨ c = Component.textures ∨ c = Component.lights
              ∨ c = Component.cameras ∨ c = Component.animations
              ∨ c = Component.boneWeights ∨ c = Component.colors)
            ∨ (opts.stripNormals = true
                ∧ (c = Component.normals ∨ c = Component.tangentsAndBitangents))
            ∨ (opts.stripTexCoords = true ∧ c = Component.texCoords))
  ∧ Scene.loadProcessSteps opts
      = [ProcessStep.removeComponent, ProcessStep.joinIdenticalVertices,
         ProcessStep.triangulate] := by
  refine ⟨?_, rfl⟩
  intro c
  by_cases h1 : opts.stripNormals <;> by_cases h2 : opts.stripTexCoords <;>
    simp [Scene.loadRemoveComponents, h1, h2] <;> tauto

/-- Witness for C10 at a concrete configuration with `stripNormals` set:
normals are in the removal set, and texture coordinates are not. -/
theorem load_remove_components_and_process_flags_witness :
    Component.normals
      ∈ Scene.loadRemoveComponents { defaultOptions with stripNormals := true }
  ∧ Component.texCoords
      ∉ Scene.loadRemoveComponents { defaultOptions with stripNormals := true } := by
  have h := load_remove_components_and_process_flags
    { defaultOptions with stripNormals := true }
  constructor
  · exact (h.1 Component.normals).mpr (by simp [defaultOptions])
  · intro hmem
    have := (h.1 Component.texCoords).mp hmem
    simp [defaultOptions] at this

end Meshsmith
